import Mathlib

/-!
Shallow embedding of the unified-query-service core (orchestrator, ranking
engine, result cache, query analyzer) from
`monorepo/services/unified-query-service/src/{orchestrator,ranking,cache,models,config}.py`.

Modelling conventions:
  * Python float arithmetic is modelled as exact arithmetic (ℚ for the
    statistics, ℝ for the ranking engine, which uses `math.exp`).
  * Wall-clock quantities (processing_time, timestamps, TTL expiry) are not
    modelled; the per-request latency sample fed to `_update_stats` is an
    explicit parameter.  Cache entries are therefore "live" (within TTL).
  * Adapter I/O (`adapter.search`) is modelled by an explicit `behavior`
    oracle, `source → query-text → Except error results`; a raised
    exception (timeout after the tenacity retries, transport error, ...)
    is the `Except.error` case.  The tenacity retry decorator re-runs the
    same deterministic call, so it does not change the outcome.
  * Each model query function also returns the list of sources whose
    adapter `search` was actually invoked (the call log), so that
    "no adapter work happened" is expressible.
  * Python `hash(content.lower().strip())` is modelled by the normalized
    content string itself (hash equality idealized as content equality,
    exactly as the spec reads it).
  * `aiocache` first runs the configured serializer (`JsonSerializer`,
    plain `json.dumps`) on the value handed to `set`; a value holding
    pydantic `QueryResult` objects is not JSON-serializable and makes
    `set` raise `TypeError` before anything is stored.  On success the
    MEMORY backend is a plain dict insert/overwrite that never evicts;
    the model mirrors both paths.
-/

/-! ## models.py -/

inductive QueryMode where
  | unified
  | sequential
  | parallel
  | smart
  deriving DecidableEq

def QueryMode.str : QueryMode → String
  | .unified => "unified"
  | .sequential => "sequential"
  | .parallel => "parallel"
  | .smart => "smart"

/-- `QueryResult` of models.py.  The score type is a parameter `α` (a Python
float): the orchestrator never inspects it, the ranking engine instantiates
it with ℝ.  `metadata` is modelled by its two fields the code reads
(`metadata["keywords"]`, `metadata["entities"]`); an absent key and a
present-but-empty list are observationally equal in `_update_context`.
`timestamp` (wall clock, set to `utcnow()`) is elided. -/
structure QueryResult (α : Type) where
  id : String := ""
  content : String := ""
  source : String := ""
  score : α
  keywords : List String := []
  entities : List String := []
  deriving DecidableEq

/-- The `results` field of the response: a flat list (unified / sequential /
smart) or the per-source grouping returned by parallel mode. -/
inductive QueryPayload (α : Type) where
  | flat (results : List (QueryResult α))
  | grouped (groups : List (String × List (QueryResult α)))
  deriving DecidableEq

/-- Python `len(results)`: list length, or number of keys of the grouped dict. -/
def QueryPayload.size : QueryPayload α → Nat
  | .flat rs => rs.length
  | .grouped g => g.length

/-- The response dict built by `QueryOrchestrator.query` (the wall-clock
`processing_time` and the `metadata["timestamp"]` are elided;
`metadata["cache_hit"]` is kept). -/
structure QueryResponse (α : Type) where
  query : String
  mode : QueryMode
  results : QueryPayload α
  total_results : Nat
  sources_queried : List String
  cache_hit : Bool
  deriving DecidableEq

/-- `QueryStats` of models.py.  The Python counter dicts (`queries_by_mode`,
`queries_by_source`) are modelled as total functions with default 0, which is
what `dict.get(k, 0)` reads back. -/
structure QueryStats where
  total_queries : Nat := 0
  queries_by_mode : QueryMode → Nat := fun _ => 0
  queries_by_source : String → Nat := fun _ => 0
  average_latency : ℚ := 0
  cache_hit_rate : ℚ := 0
  error_rate : ℚ := 0

/-- The options dict, modelled by the three keys the orchestrator reads, each
with the default its `options.get(key, default)` call supplies. -/
structure QueryOptions where
  max_results : Nat := 10
  deduplicate : Bool := true
  ranking_strategy : String := "hybrid"
  deriving DecidableEq

/-! ## cache.py -/

/-- `QueryCache`: the aiocache MEMORY backend is a dict, modelled as an
association list; `max_size` is read from `CACHE_CONFIG["query_cache"]`
(1000) in `__init__`. -/
structure QueryCache (V : Type) where
  store : List (String × V) := []
  max_size : Nat := 1000
  hits : Nat := 0
  misses : Nat := 0

def assocLookup (l : List (String × V)) (k : String) : Option V :=
  (l.find? (fun p => p.1 == k)).map (fun p => p.2)

/-- `QueryCache.set`: aiocache first applies the configured serializer
(`JsonSerializer`, i.e. `json.dumps`) to the value and raises `TypeError`
when it is not JSON-serializable; on success the MEMORY backend performs a
plain dict insert/overwrite.  The code never consults `max_size` here and
performs no eviction.  `serializable` is the model of `json.dumps`
succeeding on a value of type `V`. -/
def QueryCache.set (c : QueryCache V) (serializable : V → Bool) (k : String) (v : V) :
    Except String (QueryCache V) :=
  if serializable v then
    .ok { c with store := (k, v) :: c.store.eraseP (fun p => p.1 == k) }
  else .error "TypeError: Object of type QueryResult is not JSON serializable"

/-- One `set` call in a sequence of cache writes: the new state on success,
the unchanged state if the serializer raised (for serializable values the
error branch is dead). -/
def setOrKeep (s : V → Bool) (v : V) (c : QueryCache V) (k : String) : QueryCache V :=
  match c.set s k v with
  | .ok c₂ => c₂
  | .error _ => c

/-- `json.dumps` on a response dict: every field is a string, number, bool or
list/dict of those, except the `results` payload, whose entries are pydantic
`QueryResult` objects — unserializable.  So the response serializes exactly
when its payload holds no result object. -/
def jsonSerializableResponse (r : QueryResponse α) : Bool :=
  match r.results with
  | .flat rs => rs.isEmpty
  | .grouped g => g.all (fun p => p.2.isEmpty)

/-- `QueryCache.get`: lookup plus hit/miss accounting.  (The code tests
`if result:`, Python truthiness; every value the orchestrator stores is a
non-empty response dict, hence truthy, so presence is the faithful test.) -/
def QueryCache.get (c : QueryCache V) (k : String) : Option V × QueryCache V :=
  match assocLookup c.store k with
  | some v => (some v, { c with hits := c.hits + 1 })
  | none => (none, { c with misses := c.misses + 1 })

/-- Keys used to exhibit arbitrarily many distinct cache entries. -/
def natKey (n : Nat) : String := String.mk (List.replicate (n + 1) 'a')

/-! ## Python string primitives

Modelled charwise over the string's character list (Lean's library versions
are extensionally the same but are defined by well-founded recursion, which
blocks kernel evaluation). -/

/-- Python `str.lower()`. -/
def pyLower (s : String) : String := String.mk (s.data.map Char.toLower)

/-- Python `str.strip()`: drop leading and trailing whitespace. -/
def pyStrip (s : String) : String :=
  String.mk (((s.data.dropWhile Char.isWhitespace).reverse.dropWhile Char.isWhitespace).reverse)

/-- Python `str.split()` with no argument: split on whitespace runs,
discarding empty tokens. -/
def pySplitWords (s : String) : List String :=
  ((s.data.splitOnP Char.isWhitespace).map String.mk).filter (fun t => t != "")

/-- Lexicographic code-point comparison of character lists: this is how
Python compares strings. -/
def listCharLE : List Char → List Char → Bool
  | [], _ => true
  | _ :: _, [] => false
  | a :: as, b :: bs =>
    if a.toNat < b.toNat then true
    else if b.toNat < a.toNat then false
    else listCharLE as bs

/-- Python `a <= b` on strings. -/
def pyStrLE (a b : String) : Bool := listCharLE a.data b.data

/-- The propositional form of `pyStrLE`, the order `sorted` uses. -/
def strLE (a b : String) : Prop := pyStrLE a b = true

instance : DecidableRel strLE := fun a b => inferInstanceAs (Decidable (pyStrLE a b = true))

/-! ## the cache key (`QueryOrchestrator._generate_cache_key`) -/

/-- A Python value that can sit in the options dict. -/
inductive PyVal where
  | int (n : ℤ)
  | str (s : String)
  | bool (b : Bool)
  deriving DecidableEq

/-- Python `repr` of the value, as it appears inside `str(sorted(options.items()))`. -/
def PyVal.render : PyVal → String
  | .int n => toString n
  | .str s => "'" ++ s ++ "'"
  | .bool b => if b then "True" else "False"

/-- The order `sorted(options.items())` uses on the items of a dict: tuples
compare by first component first, and the keys of a dict are pairwise
distinct, so the values are never compared. -/
def keyLE (p q : String × PyVal) : Prop := strLE p.1 q.1

instance : DecidableRel keyLE := fun p q => inferInstanceAs (Decidable (strLE p.1 q.1))

def sortedOptionItems (options : List (String × PyVal)) : List (String × PyVal) :=
  List.insertionSort keyLE options

/-- Python `str` of the sorted items list. -/
def renderItems (items : List (String × PyVal)) : String :=
  "[" ++ String.intercalate ", " (items.map (fun p => "('" ++ p.1 ++ "', " ++ p.2.render ++ ")")) ++ "]"

/-- `_generate_cache_key`: `f"{query}:{mode}:{sources_str}:{options_str}"`
with `sources_str = ",".join(sorted(sources or []))` and
`options_str = str(sorted(options.items())) if options else ""`. -/
def generate_cache_key (query : String) (mode : String) (sources : List String)
    (options : List (String × PyVal)) : String :=
  let sources_str := String.intercalate "," (List.insertionSort strLE sources)
  let options_str := if options.isEmpty then "" else renderItems (sortedOptionItems options)
  query ++ ":" ++ mode ++ ":" ++ sources_str ++ ":" ++ options_str

/-- The options dict the service builds from `QueryOptions` restricted to the
three keys this model carries, in dict insertion order. -/
def queryOptionsItems (o : QueryOptions) : List (String × PyVal) :=
  [("max_results", PyVal.int (o.max_results : ℤ)),
   ("deduplicate", PyVal.bool o.deduplicate),
   ("ranking_strategy", PyVal.str o.ranking_strategy)]

/-! ## the query analyzer (`QueryOrchestrator.analyze_query`) -/

/-- Python `term in text` (substring containment). -/
def containsTerm (text term : String) : Bool := decide (term.toList <:+: text.toList)

structure QueryAnalysis where
  query_type : String
  complexity : String
  requires_context : Bool
  broad_search : Bool
  recommended_sources : List String
  features_needed : List String
  mode : QueryMode
  deriving DecidableEq

/-- `analyze_query`: pure keyword heuristics of orchestrator.py. -/
def analyze_query (query : String) : QueryAnalysis :=
  let ql := pyLower query
  let query_type :=
    if ["how", "why", "explain"].any (containsTerm ql) then "explanatory"
    else if ["when", "date", "time"].any (containsTerm ql) then "temporal"
    else if ["who", "person", "user"].any (containsTerm ql) then "entity"
    else if ["document", "file", "pdf"].any (containsTerm ql) then "document"
    else "general"
  let requires_context := query_type == "explanatory"
  let isComplex :=
    (pySplitWords query).length > 10
      || ["AND", "OR", "NOT"].any (containsTerm query)
  let complexity := if isComplex then "complex" else "simple"
  let broad_search := isComplex
  let rec_feat :=
    if query_type == "explanatory" then
      (["cognee", "llamacloud"], ["semantic_search", "concept_linking"])
    else if query_type == "document" then
      (["llamacloud", "memos"], ["document_search", "structured_extraction"])
    else if query_type == "entity" then
      (["memos", "cognee"], ["user_context", "graph_traversal"])
    else
      (["cognee", "llamacloud", "memos"], ["semantic_search", "fast_retrieval"])
  let mode :=
    if requires_context then QueryMode.sequential
    else if broad_search then QueryMode.unified
    else QueryMode.smart
  { query_type := query_type, complexity := complexity,
    requires_context := requires_context, broad_search := broad_search,
    recommended_sources := rec_feat.1, features_needed := rec_feat.2, mode := mode }

/-- `settings.MEMORY_SYSTEM_CONFIG`, restricted to the `features` lists the
source-selection loop reads, in dict insertion order (config.py). -/
def MEMORY_SYSTEM_CONFIG : List (String × List String) :=
  [("cognee", ["semantic_search", "graph_traversal", "concept_linking"]),
   ("memento", ["key_value", "fast_retrieval", "simple_storage"]),
   ("memos", ["multi_type_memory", "user_context", "activation_memory"]),
   ("llamacloud", ["document_search", "structured_extraction", "rag"])]

/-- `_select_sources_for_query`.  The Python loop appends a config source at
most once (dict keys are unique), so the `source not in selected` test is
equivalent to `source not in selected₁`. -/
def _select_sources_for_query (analysis : QueryAnalysis)
    (available_sources : List String) (adapters : List String) : List String :=
  let selected₁ := analysis.recommended_sources.filter
    (fun s => available_sources.contains s && adapters.contains s)
  let selected₂ := selected₁ ++
    (MEMORY_SYSTEM_CONFIG.filter (fun p =>
        available_sources.contains p.1 && !selected₁.contains p.1 &&
        analysis.features_needed.any (fun f => p.2.contains f))).map Prod.fst
  if selected₂.isEmpty then available_sources else selected₂

/-! ## sequential-mode context machinery -/

/-- The context dict of `_query_sequential`; an absent key and a present
empty list are observationally equal throughout, so both are `[]` here. -/
structure QueryContext where
  key_terms : List String := []
  entities : List String := []
  deriving DecidableEq

/-- `_update_context`.  Python's `list(set(...))[:10]` iterates the set in a
hash-dependent order; the model keeps first occurrences (`eraseDups`). -/
def _update_context (context : QueryContext) (results : List (QueryResult α)) : QueryContext :=
  let c := (results.take 5).foldl
    (fun c r => { c with key_terms := c.key_terms ++ r.keywords,
                         entities := c.entities ++ r.entities })
    context
  { key_terms := c.key_terms.eraseDups.take 10, entities := c.entities.eraseDups.take 10 }

/-- `_enhance_query_with_context`. -/
def _enhance_query_with_context (query : String) (context : QueryContext) : String :=
  if context.key_terms.isEmpty && context.entities.isEmpty then query
  else
    let enhancements :=
      (if !context.key_terms.isEmpty then
        ["Related to: " ++ String.intercalate ", " (context.key_terms.take 5)] else [])
      ++ (if !context.entities.isEmpty then
        ["Involving: " ++ String.intercalate ", " (context.entities.take 5)] else [])
    if enhancements.isEmpty then query
    else query ++ " (" ++ String.intercalate "; " enhancements ++ ")"

/-! ## deduplication (`QueryOrchestrator._deduplicate_results`) -/

/-- The seen-set loop of `_deduplicate_results`; `seen` holds the normalized
content of every result already scanned. -/
def dedupAux : List String → List (QueryResult α) → List (QueryResult α)
  | _, [] => []
  | seen, r :: rs =>
    let content_hash := pyStrip (pyLower r.content)
    if seen.contains content_hash then dedupAux seen rs
    else r :: dedupAux (content_hash :: seen) rs

def _deduplicate_results (results : List (QueryResult α)) : List (QueryResult α) :=
  dedupAux [] results

/-- The spec's own description of deduplication, for comparison: the first
occurrence of each normalized-content class is kept in input order and every
later member of its class is dropped. -/
def dedupSpecFirstOcc : List (QueryResult α) → List (QueryResult α)
  | [] => []
  | r :: rs =>
    r :: dedupSpecFirstOcc
      (rs.filter (fun x => pyStrip (pyLower x.content) != pyStrip (pyLower r.content)))
termination_by l => l.length
decreasing_by
  simp only [List.length_cons]
  exact Nat.lt_succ_of_le (List.length_filter_le _ _)

/-! ## statistics (`QueryOrchestrator._update_stats`) -/

/-- `_update_stats`: `total_queries` is incremented first and the new value is
the `n` of the moving-average line. -/
def _update_stats (stats : QueryStats) (mode : QueryMode) (sources : List String)
    (latency : ℚ) : QueryStats :=
  let total := stats.total_queries + 1
  { stats with
    total_queries := total
    queries_by_mode := fun m =>
      if m = mode then stats.queries_by_mode m + 1 else stats.queries_by_mode m
    queries_by_source := sources.foldl
      (fun f source => fun s => if s = source then f s + 1 else f s)
      stats.queries_by_source
    average_latency := (stats.average_latency * ((total : ℚ) - 1) + latency) / (total : ℚ) }

/-! ## the orchestrator's per-mode query paths -/

/-- `_query_single_source`.  An unknown source returns `[]` without touching
any adapter; otherwise `adapter.search` runs (so the source enters the call
log) and its results get this source's name, or its failure propagates (after
the retries). -/
def _query_single_source (adapters : List String)
    (behavior : String → String → Except String (List (QueryResult α)))
    (source : String) (query : String) :
    Except String (List (QueryResult α)) × List String :=
  if adapters.contains source then
    match behavior source query with
    | .ok results => (.ok (results.map (fun r => { r with source := source })), [source])
    | .error e => (.error e, [source])
  else (.ok [], [])

/-- `_query_unified`: gather with `return_exceptions=True`, then the
flatten-and-filter loop (failed sources are skipped). -/
def _query_unified (adapters : List String)
    (behavior : String → String → Except String (List (QueryResult α)))
    (query : String) (sources : List String) : List (QueryResult α) × List String :=
  let outcomes := sources.map (fun s => _query_single_source adapters behavior s query)
  (outcomes.foldl (fun acc o => match o.1 with | .ok rs => acc ++ rs | .error _ => acc) [],
   outcomes.foldl (fun acc o => acc ++ o.2) [])

/-- `_query_sequential`: fold over sources, enhancing the query with the
running context; a failing source is skipped and leaves the context unchanged. -/
def _query_sequential (adapters : List String)
    (behavior : String → String → Except String (List (QueryResult α)))
    (query : String) (sources : List String) : List (QueryResult α) × List String :=
  let step := fun (st : QueryContext × List (QueryResult α) × List String) (source : String) =>
    let (context, acc, log) := st
    let enhanced := _enhance_query_with_context query context
    match _query_single_source adapters behavior source enhanced with
    | (.ok results, l) => (_update_context context results, acc ++ results, log ++ l)
    | (.error _, l) => (context, acc, log ++ l)
  let fin := sources.foldl step ({}, [], [])
  (fin.2.1, fin.2.2)

/-- `_query_parallel`: same fan-out, results grouped by source, a failing
source yields an empty group. -/
def _query_parallel (adapters : List String)
    (behavior : String → String → Except String (List (QueryResult α)))
    (query : String) (sources : List String) :
    List (String × List (QueryResult α)) × List String :=
  let outcomes := sources.map (fun s => (s, _query_single_source adapters behavior s query))
  (outcomes.map (fun p => (p.1, match p.2.1 with | .ok rs => rs | .error _ => [])),
   outcomes.foldl (fun acc p => acc ++ p.2.2) [])

/-- `_query_smart`.  On the single-primary-source path the call to
`_query_single_source` is not guarded: `selected_sources[0]` raises
`IndexError` on an empty selection, and a primary-source failure propagates. -/
def _query_smart (adapters : List String)
    (behavior : String → String → Except String (List (QueryResult α)))
    (query : String) (sources : List String) (options : QueryOptions) :
    Except String (List (QueryResult α)) × List String :=
  let analysis := analyze_query query
  let selected_sources := _select_sources_for_query analysis sources adapters
  if analysis.requires_context then
    let r := _query_sequential adapters behavior query selected_sources
    (.ok r.1, r.2)
  else if analysis.broad_search then
    let r := _query_unified adapters behavior query selected_sources
    (.ok r.1, r.2)
  else
    match selected_sources with
    | [] => (.error "IndexError: list index out of range", [])
    | primary_source :: rest =>
      match _query_single_source adapters behavior primary_source query with
      | (.error e, log) => (.error e, log)
      | (.ok results, log) =>
        if results.length < options.max_results then
          let add := _query_unified adapters behavior query rest
          (.ok (results ++ add.1), log ++ add.2)
        else (.ok results, log)

/-- `_process_results`: dedup (if requested), rank, truncate; an empty result
list short-circuits.  The ranking engine call is the `rank` parameter
(strategy string ↦ ordering), mirroring `self.ranking_engine.rank`. -/
def _process_results (rank : String → List (QueryResult α) → List (QueryResult α))
    (options : QueryOptions) (results : List (QueryResult α)) : List (QueryResult α) :=
  if results.isEmpty then []
  else
    let r₁ := if options.deduplicate then _deduplicate_results results else results
    let r₂ := rank options.ranking_strategy r₁
    r₂.take options.max_results

/-! ## the orchestrator -/

/-- The mutable state of a `QueryOrchestrator`: its adapter table (keys in
registration order), its cache and its statistics. -/
structure Orchestrator (α : Type) where
  adapters : List String
  cache : QueryCache (QueryResponse α) := {}
  stats : QueryStats := {}

/-- Source resolution of `query`: `if not sources` use every adapter, else
keep the explicitly requested sources that have a configured adapter. -/
def resolveSources (adapters : List String) (sources : List String) : List String :=
  if sources.isEmpty then adapters else sources.filter (fun s => adapters.contains s)

/-- `QueryOrchestrator.query` as a state transformer.  Returns the response
(or the propagated exception), the new orchestrator state, and the adapter
call log.  `latency` is the wall-clock sample the code feeds to
`_update_stats` (time is not modelled). -/
def Orchestrator.query (o : Orchestrator α)
    (rank : String → List (QueryResult α) → List (QueryResult α))
    (behavior : String → String → Except String (List (QueryResult α)))
    (query : String) (mode : QueryMode) (sources : List String)
    (options : QueryOptions) (latency : ℚ) :
    Except String (QueryResponse α) × Orchestrator α × List String :=
  let cache_key := generate_cache_key query mode.str sources (queryOptionsItems options)
  match o.cache.get cache_key with
  | (some cached, cache₁) =>
    (.ok cached,
     { o with cache := cache₁,
              stats := { o.stats with cache_hit_rate := o.stats.cache_hit_rate + 1 } },
     [])
  | (none, cache₁) =>
    let o₁ := { o with cache := cache₁ }
    let resolved := resolveSources o.adapters sources
    let dispatched : Except String (QueryPayload α) × List String :=
      match mode with
      | .unified =>
        let r := _query_unified o.adapters behavior query resolved
        (.ok (.flat r.1), r.2)
      | .sequential =>
        let r := _query_sequential o.adapters behavior query resolved
        (.ok (.flat r.1), r.2)
      | .parallel =>
        let r := _query_parallel o.adapters behavior query resolved
        (.ok (.grouped r.1), r.2)
      | .smart =>
        match _query_smart o.adapters behavior query resolved options with
        | (.ok rs, log) => (.ok (.flat rs), log)
        | (.error e, log) => (.error e, log)
    match dispatched with
    | (.error e, log) => (.error e, o₁, log)
    | (.ok payload, log) =>
      let processed : QueryPayload α :=
        if mode = .parallel then payload
        else
          match payload with
          | .flat rs => .flat (_process_results rank options rs)
          | .grouped g => .grouped g
      let response : QueryResponse α :=
        { query := query, mode := mode, results := processed,
          total_results := processed.size, sources_queried := resolved,
          cache_hit := false }
      match o₁.cache.set jsonSerializableResponse cache_key response with
      | .ok cache₂ =>
        let o₂ := { o₁ with cache := cache₂,
                            stats := _update_stats o₁.stats mode resolved latency }
        (.ok response, o₂, log)
      | .error e => (.error e, o₁, log)

/-! ## ranking.py -/

/-- The weights dict handed to the ranking engine (config.py
`RANKING_WEIGHTS` and the engine's own `None` default are both
0.4 / 0.2 / 0.2 / 0.2). -/
structure RankingWeights where
  relevance : ℝ
  recency : ℝ
  source_trust : ℝ
  user_preference : ℝ

noncomputable def defaultRankingWeights : RankingWeights :=
  { relevance := 0.4, recency := 0.2, source_trust := 0.2, user_preference := 0.2 }

/-- `_get_source_trust`: fixed table, default 0.5. -/
noncomputable def _get_source_trust (source : String) : ℝ :=
  if source = "cognee" then 0.9
  else if source = "llamacloud" then 0.85
  else if source = "memos" then 0.8
  else if source = "memento" then 0.7
  else 0.5

/-- A result as `_rank_hybrid` sees it: its relevance score, its age in hours
(`(utcnow() - timestamp).total_seconds() / 3600`, carried directly since wall
clock is not modelled) and its source. -/
structure RankItem where
  score : ℝ
  age_hours : ℝ
  source : String

/-- `math.exp(-age_hours / 168)` — the weekly decay factor. -/
noncomputable def recency_decay (age_hours : ℝ) : ℝ := Real.exp (-(age_hours / 168))

/-- The composite score `_rank_hybrid` writes into `result.score`. -/
noncomputable def hybrid_score (w : RankingWeights) (r : RankItem) : ℝ :=
  r.score * w.relevance + recency_decay r.age_hours * w.recency
    + _get_source_trust r.source * w.source_trust + 0.5 * w.user_preference

/-- The comparator of `sorted(results, key=lambda r: r.score, reverse=True)`:
a stable descending sort keeps `a` before `b` when `b.score ≤ a.score`. -/
noncomputable def scoreDescBool (a b : RankItem) : Bool := decide (b.score ≤ a.score)

/-- Python's `sorted` (Timsort) is a stable sort; any two stable sorts of the
same total preorder agree, so it is modelled by stable `mergeSort`. -/
noncomputable def sortByScoreDesc (l : List RankItem) : List RankItem :=
  l.mergeSort scoreDescBool

/-- `_rank_hybrid`: composite-score every result in place, then sort
descending by score. -/
noncomputable def _rank_hybrid (w : RankingWeights) (results : List RankItem) : List RankItem :=
  sortByScoreDesc (results.map (fun r => { r with score := hybrid_score w r }))

/-! ## concrete fixtures used by closed theorems and witnesses -/

/-- A ranking-engine stand-in that returns its input unchanged. -/
def rankId : String → List (QueryResult ℚ) → List (QueryResult ℚ) := fun _ rs => rs

/-- Adapter oracle: every search succeeds with no results. -/
def behaviorEmpty : String → String → Except String (List (QueryResult ℚ)) := fun _ _ => .ok []

/-- Adapter oracle: every search raises. -/
def behaviorFail : String → String → Except String (List (QueryResult ℚ)) :=
  fun _ _ => .error "boom"

/-- An orchestrator with no configured adapters (resolved source set is empty). -/
def orchNone : Orchestrator ℚ := { adapters := [] }

/-- An orchestrator with the single adapter `cognee`. -/
def orchCognee : Orchestrator ℚ := { adapters := ["cognee"] }

/-- An orchestrator with adapters `cognee` and `memento`. -/
def orchTwo : Orchestrator ℚ := { adapters := ["cognee", "memento"] }

/-- One concrete raw result returned by the succeeding source. -/
def resDoc : QueryResult ℚ := { id := "1", content := "Doc", score := 1/2 }

/-- Mixed adapter oracle: `cognee` times out, `memento` succeeds. -/
def behaviorMixed : String → String → Except String (List (QueryResult ℚ)) :=
  fun source _ => if source = "cognee" then .error "TimeoutError" else .ok [resDoc]

/-- A cached response used to exercise the cache-hit fast path. -/
def respCached : QueryResponse ℚ :=
  { query := "q", mode := .unified, results := .flat [], total_results := 0,
    sources_queried := [], cache_hit := false }

/-- An orchestrator whose cache already holds the response for query `q`
in unified mode with default options. -/
def orchHit : Orchestrator ℚ :=
  { adapters := ["cognee"],
    cache := { store :=
      [(generate_cache_key "q" QueryMode.unified.str [] (queryOptionsItems {}), respCached)] } }

/-- The spec's first concrete ranking result: score 0.9, age 0 h, trust 0.9. -/
noncomputable def itemFresh : RankItem := { score := 0.9, age_hours := 0, source := "cognee" }

/-- The spec's second concrete ranking result: score 0.8, age 168 h, and a
source outside the trust table, so trust 0.5. -/
noncomputable def itemWeekOld : RankItem := { score := 0.8, age_hours := 168, source := "other" }

/-! # Theorems -/

/-! ## helper lemmas -/

/-- Writing a batch of serializable values under fresh, pairwise-distinct
keys grows the store by one entry per key: `QueryCache.set` never evicts
(the fold keeps the old state on the error branch, which the serializability
hypothesis rules out). -/
theorem setMany_store_length {V : Type} (s : V → Bool) (v : V) (hs : s v = true) :
    ∀ (keys : List String) (c : QueryCache V), keys.Nodup →
      (∀ k ∈ keys, ∀ p ∈ c.store, p.1 ≠ k) →
      ((keys.foldl (setOrKeep s v) c).store.length = keys.length + c.store.length)
  | [], c, _, _ => by simp
  | k :: ks, c, hnd, hfresh => by
    have herase : c.store.eraseP (fun p => p.1 == k) = c.store := by
      apply List.eraseP_of_forall_not
      intro p hp
      simpa using hfresh k (by simp) p hp
    have hset : setOrKeep s v c k = { c with store := (k, v) :: c.store } := by
      simp [setOrKeep, QueryCache.set, hs, herase]
    have hfresh₂ : ∀ k' ∈ ks,
        ∀ p ∈ ({ c with store := (k, v) :: c.store } : QueryCache V).store, p.1 ≠ k' := by
      intro k' hk' p hp
      rcases List.mem_cons.mp hp with h | h
      · subst h
        intro hcontra
        simp only at hcontra
        exact (List.nodup_cons.mp hnd).1 (hcontra ▸ hk')
      · exact hfresh k' (List.mem_cons_of_mem _ hk') p h
    have ih := setMany_store_length s v hs ks { c with store := (k, v) :: c.store }
      (List.nodup_cons.mp hnd).2 hfresh₂
    simp only [List.foldl_cons, hset, ih]
    simp
    omega

theorem natKey_injective : Function.Injective natKey := by
  intro a b h
  have h₂ := congrArg (fun s => s.data.length) h
  simpa [natKey] using h₂

/-- C3: the model's cache-bound counterexample.  After 1001 `set` calls with
pairwise-distinct keys and string values (JSON serializes every string, so
every `set` succeeds and stores), the store holds 1001 live entries while the
configured `max_size` is 1000: no eviction ever happens. -/
theorem claim_C3_cache_bound_violated :
    (((List.range 1001).map natKey).foldl
        (setOrKeep (fun _ => true) "response") ({} : QueryCache String)).store.length = 1001
    ∧ ({} : QueryCache String).max_size = 1000 := by
  constructor
  · have hnd : ((List.range 1001).map natKey).Nodup :=
      List.Nodup.map natKey_injective (List.nodup_range 1001)
    have h := setMany_store_length (fun _ => true) "response" rfl
      ((List.range 1001).map natKey) {} hnd
      (by intro k _ p hp; simp at hp)
    have h3 : ({} : QueryCache String).store.length = 0 := rfl
    rw [h, h3, List.length_map, List.length_range]
  · rfl

/-- C2: with no resolvable source, unified, sequential and parallel modes
return a zero-result response, but smart mode (on a query whose analysis
needs neither context nor broad search) raises `IndexError` from
`selected_sources[0]` — the empty resolved set is an error in smart mode. -/
theorem claim_C2_empty_sources_smart_raises :
    ((orchNone.query rankId behaviorEmpty "hello" .unified [] {} 0).1 =
      .ok { query := "hello", mode := .unified, results := .flat [], total_results := 0,
            sources_queried := [], cache_hit := false })
    ∧ ((orchNone.query rankId behaviorEmpty "hello" .sequential [] {} 0).1 =
      .ok { query := "hello", mode := .sequential, results := .flat [], total_results := 0,
            sources_queried := [], cache_hit := false })
    ∧ ((orchNone.query rankId behaviorEmpty "hello" .parallel [] {} 0).1 =
      .ok { query := "hello", mode := .parallel, results := .grouped [], total_results := 0,
            sources_queried := [], cache_hit := false })
    ∧ ((orchNone.query rankId behaviorEmpty "hello" .smart [] {} 0).1 =
      .error "IndexError: list index out of range") := by
  refine ⟨by rfl, by rfl, by rfl, by rfl⟩

/-- C1 (counterexample): in smart mode on a simple query, with one configured
adapter whose search raises, `query` propagates the exception instead of
returning a response. -/
theorem claim_C1_counterexample :
    ((orchCognee.query rankId behaviorFail "hello" .smart [] {} 0).1 = .error "boom")
    ∧ ((orchCognee.query rankId behaviorFail "hello" .smart [] {} 0).1.isOk = false) := by
  exact ⟨by rfl, by rfl⟩

/-- On the smart path that queries the single top-recommended source first,
a failure of that call propagates out of `_query_smart`. -/
theorem query_smart_primary_failure {α : Type}
    (adapters : List String)
    (behavior : String → String → Except String (List (QueryResult α)))
    (q : String) (sources : List String) (options : QueryOptions)
    (primary : String) (rest : List String) (e : String)
    (h1 : (analyze_query q).requires_context = false)
    (h2 : (analyze_query q).broad_search = false)
    (h3 : _select_sources_for_query (analyze_query q) sources adapters = primary :: rest)
    (h4 : adapters.contains primary = true)
    (h5 : behavior primary q = .error e) :
    _query_smart adapters behavior q sources options = (.error e, [primary]) := by
  simp only [_query_smart, h1, h2, h3, Bool.false_eq_true, if_false,
    _query_single_source, h4, h5, if_true]

/-- C1 (amended): in smart mode, when the analysis neither requires context
nor flags a broad search and the cache misses, a failure of the primary
single-source call fails the entire request: `query` propagates the
exception to its caller instead of returning a response. -/
theorem claim_C1_amended_smart_primary_failure_propagates {α : Type}
    (o : Orchestrator α)
    (rank : String → List (QueryResult α) → List (QueryResult α))
    (behavior : String → String → Except String (List (QueryResult α)))
    (q : String) (sources : List String) (options : QueryOptions) (latency : ℚ)
    (primary : String) (rest : List String) (e : String)
    (hmiss : assocLookup o.cache.store
      (generate_cache_key q QueryMode.smart.str sources (queryOptionsItems options)) = none)
    (h1 : (analyze_query q).requires_context = false)
    (h2 : (analyze_query q).broad_search = false)
    (h3 : _select_sources_for_query (analyze_query q)
      (resolveSources o.adapters sources) o.adapters = primary :: rest)
    (h4 : o.adapters.contains primary = true)
    (h5 : behavior primary q = .error e) :
    (o.query rank behavior q .smart sources options latency).1 = .error e := by
  simp only [Orchestrator.query, QueryCache.get, hmiss,
    query_smart_primary_failure o.adapters behavior q _ options primary rest e h1 h2 h3 h4 h5]

/-- C1 amended-claim witness at a concrete input. -/
theorem claim_C1_witness :
    (assocLookup orchCognee.cache.store
      (generate_cache_key "hello" QueryMode.smart.str [] (queryOptionsItems {})) = none)
    ∧ ((analyze_query "hello").requires_context = false)
    ∧ ((analyze_query "hello").broad_search = false)
    ∧ (_select_sources_for_query (analyze_query "hello")
        (resolveSources orchCognee.adapters []) orchCognee.adapters = ["cognee"])
    ∧ (orchCognee.adapters.contains "cognee" = true)
    ∧ (behaviorFail "cognee" "hello" = .error "boom")
    ∧ ((orchCognee.query rankId behaviorFail "hello" .smart [] {} 0).1 = .error "boom") :=
  ⟨by rfl, by rfl, by rfl, by rfl, by rfl, by rfl,
    claim_C1_amended_smart_primary_failure_propagates orchCognee rankId behaviorFail
      "hello" [] {} 0 "cognee" [] "boom"
      (by rfl) (by rfl) (by rfl) (by rfl) (by rfl) (by rfl)⟩

/-- C10: on a cache hit `query` returns the cached response, invokes no
adapter (empty call log), leaves total_queries, per-mode and per-source
counters, the average latency and the cache store unchanged, and increments
only the hit counters. -/
theorem claim_C10_cache_hit_frame {α : Type}
    (o : Orchestrator α)
    (rank : String → List (QueryResult α) → List (QueryResult α))
    (behavior : String → String → Except String (List (QueryResult α)))
    (q : String) (mode : QueryMode) (sources : List String) (options : QueryOptions)
    (latency : ℚ) (resp : QueryResponse α)
    (hhit : assocLookup o.cache.store
      (generate_cache_key q mode.str sources (queryOptionsItems options)) = some resp) :
    ((o.query rank behavior q mode sources options latency).1 = .ok resp)
    ∧ ((o.query rank behavior q mode sources options latency).2.2 = [])
    ∧ ((o.query rank behavior q mode sources options latency).2.1.stats.total_queries
        = o.stats.total_queries)
    ∧ (∀ m, (o.query rank behavior q mode sources options latency).2.1.stats.queries_by_mode m
        = o.stats.queries_by_mode m)
    ∧ (∀ s, (o.query rank behavior q mode sources options latency).2.1.stats.queries_by_source s
        = o.stats.queries_by_source s)
    ∧ ((o.query rank behavior q mode sources options latency).2.1.stats.average_latency
        = o.stats.average_latency)
    ∧ ((o.query rank behavior q mode sources options latency).2.1.cache.store = o.cache.store)
    ∧ ((o.query rank behavior q mode sources options latency).2.1.cache.hits = o.cache.hits + 1)
    ∧ ((o.query rank behavior q mode sources options latency).2.1.stats.cache_hit_rate
        = o.stats.cache_hit_rate + 1) := by
  simp only [Orchestrator.query, QueryCache.get, hhit]
  simp

/-- C10 witness at a concrete input. -/
theorem claim_C10_witness :
    (assocLookup orchHit.cache.store
      (generate_cache_key "q" QueryMode.unified.str [] (queryOptionsItems {})) = some respCached)
    ∧ ((orchHit.query rankId behaviorEmpty "q" .unified [] {} 0).1 = .ok respCached) :=
  ⟨by rfl,
    (claim_C10_cache_hit_frame orchHit rankId behaviorEmpty "q" .unified [] {} 0 respCached
      (by rfl)).1⟩

/-- The per-source counter loop of `_update_stats` adds the multiplicity of
each source in the queried list to its counter. -/
theorem foldl_count_apply (sources : List String) (f : String → Nat) (s : String) :
    (sources.foldl (fun f source => fun x => if x = source then f x + 1 else f x) f) s
      = f s + sources.count s := by
  induction sources generalizing f with
  | nil => simp
  | cons h t ih =>
    rw [List.foldl_cons, ih]
    by_cases hs : s = h
    · subst hs
      simp [List.count_cons]
      omega
    · simp [List.count_cons, hs]

/-- C9: `_update_stats` increments `total_queries` by one, the queried mode's
counter by one and each queried source's counter by one, and the new moving
average equals `avg + (latency - avg) / n` for `n` the new total, over exact
arithmetic. -/
theorem claim_C9_update_stats (stats : QueryStats) (mode : QueryMode)
    (sources : List String) (latency : ℚ) (src : String)
    (hnd : sources.Nodup) (hmem : src ∈ sources) :
    ((_update_stats stats mode sources latency).total_queries = stats.total_queries + 1)
    ∧ ((_update_stats stats mode sources latency).queries_by_mode mode
        = stats.queries_by_mode mode + 1)
    ∧ ((_update_stats stats mode sources latency).queries_by_source src
        = stats.queries_by_source src + 1)
    ∧ ((_update_stats stats mode sources latency).average_latency
        = stats.average_latency
          + (latency - stats.average_latency) / ((stats.total_queries : ℚ) + 1)) := by
  refine ⟨rfl, by simp [_update_stats], ?_, ?_⟩
  · show (sources.foldl _ stats.queries_by_source) src = _
    rw [foldl_count_apply, List.count_eq_one_of_mem hnd hmem]
  · show (stats.average_latency * (((stats.total_queries + 1 : Nat) : ℚ) - 1) + latency)
        / ((stats.total_queries + 1 : Nat) : ℚ) = _
    have hne : ((stats.total_queries : ℚ) + 1) ≠ 0 := by positivity
    push_cast
    field_simp
    ring

/-- C9 witness at a concrete input. -/
theorem claim_C9_witness :
    (["cognee"].Nodup) ∧ ("cognee" ∈ ["cognee"])
    ∧ (((_update_stats {} .unified ["cognee"] 3).total_queries
          = ({} : QueryStats).total_queries + 1)
      ∧ ((_update_stats {} .unified ["cognee"] 3).queries_by_mode .unified
          = ({} : QueryStats).queries_by_mode .unified + 1)
      ∧ ((_update_stats {} .unified ["cognee"] 3).queries_by_source "cognee"
          = ({} : QueryStats).queries_by_source "cognee" + 1)
      ∧ ((_update_stats {} .unified ["cognee"] 3).average_latency
          = ({} : QueryStats).average_latency
            + (3 - ({} : QueryStats).average_latency)
              / ((({} : QueryStats).total_queries : ℚ) + 1))) :=
  ⟨by decide, by decide,
    claim_C9_update_stats {} .unified ["cognee"] 3 "cognee" (by decide) (by decide)⟩

/-- Collecting the gathered outcomes with the flatten-and-filter loop yields
the concatenation of the successful outcomes' result lists. -/
theorem foldl_collect_ok {α : Type}
    (l : List (Except String (List (QueryResult α)) × List String))
    (acc : List (QueryResult α)) :
    l.foldl (fun acc o => match o.1 with | .ok rs => acc ++ rs | .error _ => acc) acc
      = acc ++ (l.map (fun o => match o.1 with | .ok rs => rs | .error _ => [])).flatten := by
  induction l generalizing acc with
  | nil => simp
  | cons h t ih =>
    rw [List.foldl_cons, ih]
    cases h1 : h.1 <;> simp [h1, List.append_assoc]

/-- `_query_unified` returns exactly the concatenation, in source order, of
the per-source successes (a failing or unknown source contributes `[]`). -/
theorem query_unified_collects {α : Type} (adapters : List String)
    (behavior : String → String → Except String (List (QueryResult α)))
    (q : String) (sources : List String) :
    (_query_unified adapters behavior q sources).1
      = (sources.map (fun s =>
          if adapters.contains s then
            match behavior s q with
            | .ok rs => rs.map (fun r => { r with source := s })
            | .error _ => []
          else [])).flatten := by
  unfold _query_unified
  simp only []
  rw [foldl_collect_ok]
  simp only [List.nil_append, List.map_map]
  apply congrArg List.flatten
  apply List.map_congr_left
  intro s _
  simp only [Function.comp]
  unfold _query_single_source
  by_cases hc : s ∈ adapters
  · cases hb : behavior s q <;> simp [hc, hb]
  · simp [hc]

/-- C4: the partial-failure claim fails at the cache-store step.  In unified
mode with `cognee` raising (timeout) and `memento` succeeding with one
result, the fan-out collection is exactly the successful source's results —
but `query` then raises: caching the response runs aiocache's
`JsonSerializer` (`json.dumps`) over a dict whose result list holds a
pydantic `QueryResult` object, so a `TypeError` escapes to the caller
instead of the response. -/
theorem claim_C4_cache_set_typeerror :
    ((_query_unified orchTwo.adapters behaviorMixed "q"
        (resolveSources orchTwo.adapters [])).1
      = [{ resDoc with source := "memento" }])
    ∧ ((orchTwo.query rankId behaviorMixed "q" .unified [] {} 0).1
      = .error "TypeError: Object of type QueryResult is not JSON serializable") :=
  ⟨by rfl, by rfl⟩

/-! ## order theory for the code-point comparison (claim C5) -/

theorem char_eq_of_toNat_eq {a b : Char} (h : a.toNat = b.toNat) : a = b :=
  Char.ext (UInt32.toNat.inj h)

theorem listCharLE_total (as : List Char) : ∀ bs, listCharLE as bs = true ∨ listCharLE bs as = true := by
  induction as with
  | nil => intro bs; left; rfl
  | cons a as ih =>
    intro bs
    cases bs with
    | nil => right; rfl
    | cons b bs =>
      simp only [listCharLE]
      rcases Nat.lt_trichotomy a.toNat b.toNat with h | h | h
      · left
        simp [h]
      · simp [h, Nat.lt_irrefl]
        exact ih bs
      · right
        simp [h, Nat.lt_asymm h]

theorem listCharLE_trans (as : List Char) :
    ∀ bs cs, listCharLE as bs = true → listCharLE bs cs = true → listCharLE as cs = true := by
  induction as with
  | nil => intros; rfl
  | cons a as ih =>
    intro bs cs h1 h2
    cases bs with
    | nil => simp [listCharLE] at h1
    | cons b bs =>
      cases cs with
      | nil => simp [listCharLE] at h2
      | cons c cs =>
        simp only [listCharLE] at h1 h2 ⊢
        by_cases hab : a.toNat < b.toNat
        · by_cases hbc : b.toNat < c.toNat
          · simp [show a.toNat < c.toNat from by omega]
          · by_cases hcb : c.toNat < b.toNat
            · simp [hbc, hcb] at h2
            · simp [show a.toNat < c.toNat from by omega]
        · by_cases hba : b.toNat < a.toNat
          · simp [hab, hba] at h1
          · simp only [hab, hba, if_false] at h1
            by_cases hbc : b.toNat < c.toNat
            · simp [show a.toNat < c.toNat from by omega]
            · by_cases hcb : c.toNat < b.toNat
              · simp [hbc, hcb] at h2
              · simp only [hbc, hcb, if_false] at h2
                simp only [show ¬ a.toNat < c.toNat from by omega,
                  show ¬ c.toNat < a.toNat from by omega, if_false]
                exact ih bs cs h1 h2

theorem listCharLE_antisymm (as : List Char) :
    ∀ bs, listCharLE as bs = true → listCharLE bs as = true → as = bs := by
  induction as with
  | nil =>
    intro bs _ h2
    cases bs with
    | nil => rfl
    | cons b bs => simp [listCharLE] at h2
  | cons a as ih =>
    intro bs h1 h2
    cases bs with
    | nil => simp [listCharLE] at h1
    | cons b bs =>
      simp only [listCharLE] at h1 h2
      by_cases hab : a.toNat < b.toNat
      · simp [show ¬ b.toNat < a.toNat from by omega, hab] at h2
      · by_cases hba : b.toNat < a.toNat
        · simp [hab, hba] at h1
        · simp only [hab, hba, if_false] at h1 h2
          have hcheq : a = b := char_eq_of_toNat_eq (by omega)
          rw [hcheq, ih bs h1 h2]

theorem strLE_antisymm {a b : String} (h1 : strLE a b) (h2 : strLE b a) : a = b := by
  cases a with
  | mk as =>
    cases b with
    | mk bs =>
      exact congrArg String.mk (listCharLE_antisymm as bs h1 h2)

instance : IsTotal String strLE := ⟨fun a b => listCharLE_total a.data b.data⟩

instance : IsTrans String strLE :=
  ⟨fun a b c h1 h2 => listCharLE_trans a.data b.data c.data h1 h2⟩

instance : IsAntisymm String strLE := ⟨fun _ _ h1 h2 => strLE_antisymm h1 h2⟩

instance : IsTotal (String × PyVal) keyLE := ⟨fun p q => listCharLE_total p.1.data q.1.data⟩

instance : IsTrans (String × PyVal) keyLE :=
  ⟨fun p q r h1 h2 => listCharLE_trans p.1.data q.1.data r.1.data h1 h2⟩

/-- Two sorted-by-key lists of dict items that are permutations of each other
and whose keys are pairwise distinct are equal: the key order plus key
uniqueness pins the items down. -/
theorem eq_of_perm_sorted_nodup_keys :
    ∀ {l₁ l₂ : List (String × PyVal)}, l₁.Perm l₂ → l₁.Sorted keyLE → l₂.Sorted keyLE →
      (l₁.map Prod.fst).Nodup → l₁ = l₂ := by
  intro l₁
  induction l₁ with
  | nil =>
    intro l₂ hp _ _ _
    exact (hp.symm.eq_nil).symm
  | cons a t₁ ih =>
    intro l₂ hp hs₁ hs₂ hnd
    cases l₂ with
    | nil => exact absurd hp.eq_nil (by simp)
    | cons b t₂ =>
      have hab : a = b := by
        have haIn : a ∈ b :: t₂ := hp.mem_iff.mp (List.mem_cons_self a t₁)
        have hbIn : b ∈ a :: t₁ := hp.mem_iff.mpr (List.mem_cons_self b t₂)
        rcases List.mem_cons.mp haIn with h | haT2
        · exact h
        rcases List.mem_cons.mp hbIn with h | hbT1
        · exact h.symm
        have h1 : keyLE b a := List.rel_of_sorted_cons hs₂ a haT2
        have h2 : keyLE a b := List.rel_of_sorted_cons hs₁ b hbT1
        have hkey : a.1 = b.1 := strLE_antisymm h2 h1
        exfalso
        have hmem : a.1 ∈ t₁.map Prod.fst := hkey ▸ List.mem_map_of_mem Prod.fst hbT1
        have hhead : a.1 ∉ t₁.map Prod.fst := by
          have := hnd
          simp only [List.map_cons, List.nodup_cons] at this
          exact this.1
        exact hhead hmem
      subst hab
      have ht : t₁.Perm t₂ := hp.cons_inv
      have hnd' : (t₁.map Prod.fst).Nodup := by
        simp only [List.map_cons, List.nodup_cons] at hnd
        exact hnd.2
      rw [ih ht hs₁.of_cons hs₂.of_cons hnd']

/-- C5: `_generate_cache_key` is canonical: reordering the explicit sources
list and/or the options dict's insertion order (its keys are distinct, as in
any dict) leaves the generated key character-for-character unchanged. -/
theorem claim_C5_cache_key_canonical (query mode : String)
    (sources₁ sources₂ : List String) (options₁ options₂ : List (String × PyVal))
    (hs : sources₁.Perm sources₂) (ho : options₁.Perm options₂)
    (hnd : (options₁.map Prod.fst).Nodup) :
    generate_cache_key query mode sources₁ options₁
      = generate_cache_key query mode sources₂ options₂ := by
  have h1 : List.insertionSort strLE sources₁ = List.insertionSort strLE sources₂ :=
    List.eq_of_perm_of_sorted
      ((List.perm_insertionSort _ _).trans (hs.trans (List.perm_insertionSort _ _).symm))
      (List.sorted_insertionSort _ _) (List.sorted_insertionSort _ _)
  have h2 : sortedOptionItems options₁ = sortedOptionItems options₂ := by
    apply eq_of_perm_sorted_nodup_keys
      ((List.perm_insertionSort _ _).trans (ho.trans (List.perm_insertionSort _ _).symm))
      (List.sorted_insertionSort _ _) (List.sorted_insertionSort _ _)
    exact (((List.perm_insertionSort keyLE options₁).map Prod.fst).nodup_iff).mpr hnd
  have h3 : options₁.isEmpty = options₂.isEmpty := by
    cases options₁ with
    | nil => rw [ho.symm.eq_nil]
    | cons x t =>
      cases options₂ with
      | nil => exact absurd ho.eq_nil (by simp)
      | cons y u => rfl
  unfold generate_cache_key sortedOptionItems at *
  rw [h1, h2, h3]

/-- C5 witness: reordering both the sources list and the options items. -/
theorem claim_C5_witness :
    (["b", "a"].Perm ["a", "b"])
    ∧ (([("y", PyVal.int 1), ("x", PyVal.str "s")].Perm [("x", PyVal.str "s"), ("y", PyVal.int 1)]))
    ∧ (([("y", PyVal.int 1), ("x", PyVal.str "s")].map Prod.fst).Nodup)
    ∧ (generate_cache_key "q" "unified" ["b", "a"] [("y", PyVal.int 1), ("x", PyVal.str "s")]
        = generate_cache_key "q" "unified" ["a", "b"] [("x", PyVal.str "s"), ("y", PyVal.int 1)]) :=
  ⟨by decide, by decide, by decide,
    claim_C5_cache_key_canonical "q" "unified" _ _ _ _ (by decide) (by decide) (by decide)⟩

/-! ## deduplication (claim C6) -/

/-- The seen-set loop equals the spec's first-occurrence recursion run on the
input purged of everything whose normalized content was already seen. -/
theorem dedupAux_eq_spec {α : Type} (l : List (QueryResult α)) :
    ∀ seen, dedupAux seen l
      = dedupSpecFirstOcc (l.filter (fun r => !seen.contains (pyStrip (pyLower r.content)))) := by
  induction l with
  | nil => intro seen; simp [dedupAux, dedupSpecFirstOcc]
  | cons r rs ih =>
    intro seen
    by_cases hs : seen.contains (pyStrip (pyLower r.content)) = true
    · have h1 : dedupAux seen (r :: rs) = dedupAux seen rs := by
        simp only [dedupAux]
        rw [if_pos hs]
      have h2 : (r :: rs).filter (fun x => !seen.contains (pyStrip (pyLower x.content)))
          = rs.filter (fun x => !seen.contains (pyStrip (pyLower x.content))) := by
        rw [List.filter_cons, if_neg (by simp_all)]
      rw [h1, h2, ih]
    · have hs' : seen.contains (pyStrip (pyLower r.content)) = false := by
        cases h : seen.contains (pyStrip (pyLower r.content))
        · rfl
        · exact absurd h hs
      have h1 : dedupAux seen (r :: rs)
          = r :: dedupAux (pyStrip (pyLower r.content) :: seen) rs := by
        simp only [dedupAux]
        rw [if_neg hs]
      have h2 : (r :: rs).filter (fun x => !seen.contains (pyStrip (pyLower x.content)))
          = r :: rs.filter (fun x => !seen.contains (pyStrip (pyLower x.content))) := by
        rw [List.filter_cons, if_pos (by simp_all)]
      rw [h1, h2, ih, dedupSpecFirstOcc, List.filter_filter]
      congr 1
      apply congrArg dedupSpecFirstOcc
      apply List.filter_congr
      intro x _
      simp only [List.contains_cons, Bool.not_or]
      cases h3 : (pyStrip (pyLower x.content) == pyStrip (pyLower r.content)) <;>
        cases h4 : seen.contains (pyStrip (pyLower x.content)) <;> simp_all [bne]

theorem dedup_results_eq_spec {α : Type} (l : List (QueryResult α)) :
    _deduplicate_results l = dedupSpecFirstOcc l := by
  rw [_deduplicate_results, dedupAux_eq_spec]
  congr 1
  simp

theorem mem_dedupSpecFirstOcc {α : Type} (x : QueryResult α) :
    ∀ (l : List (QueryResult α)), x ∈ dedupSpecFirstOcc l → x ∈ l := by
  intro l
  induction l using dedupSpecFirstOcc.induct with
  | case1 => simp [dedupSpecFirstOcc]
  | case2 r rs ih =>
    intro h
    rw [dedupSpecFirstOcc] at h
    rcases List.mem_cons.mp h with h | h
    · exact h ▸ List.mem_cons_self r rs
    · exact List.mem_cons_of_mem r (List.mem_of_mem_filter (ih h))

theorem dedupSpecFirstOcc_idem {α : Type} (l : List (QueryResult α)) :
    dedupSpecFirstOcc (dedupSpecFirstOcc l) = dedupSpecFirstOcc l := by
  induction l using dedupSpecFirstOcc.induct with
  | case1 => simp [dedupSpecFirstOcc]
  | case2 r rs ih =>
    rw [dedupSpecFirstOcc]
    rw [dedupSpecFirstOcc]
    have hfix : (dedupSpecFirstOcc (rs.filter
          (fun x => pyStrip (pyLower x.content) != pyStrip (pyLower r.content)))).filter
          (fun x => pyStrip (pyLower x.content) != pyStrip (pyLower r.content))
        = dedupSpecFirstOcc (rs.filter
          (fun x => pyStrip (pyLower x.content) != pyStrip (pyLower r.content))) := by
      apply List.filter_eq_self.mpr
      intro x hx
      have hmem := mem_dedupSpecFirstOcc x _ hx
      exact (List.mem_filter.mp hmem).2
    rw [hfix, ih]

/-- C6: `_deduplicate_results` is idempotent, and it returns exactly the
first occurrence, in input order, of each class of results with identical
normalized (lower-cased, whitespace-trimmed) content, dropping every later
member of the class. -/
theorem claim_C6_dedup_idempotent_first_occurrence {α : Type} (l : List (QueryResult α)) :
    (_deduplicate_results (_deduplicate_results l) = _deduplicate_results l)
    ∧ (_deduplicate_results l = dedupSpecFirstOcc l) := by
  refine ⟨?_, dedup_results_eq_spec l⟩
  rw [dedup_results_eq_spec, dedup_results_eq_spec, dedupSpecFirstOcc_idem]

/-! ## ranking (claims C7 and C8) -/

theorem recency_decay_pos (age_hours : ℝ) : 0 < recency_decay age_hours :=
  Real.exp_pos _

theorem recency_decay_le_one {age_hours : ℝ} (h : 0 ≤ age_hours) :
    recency_decay age_hours ≤ 1 := by
  unfold recency_decay
  calc Real.exp (-(age_hours / 168)) ≤ Real.exp 0 := by
        apply Real.exp_le_exp.mpr
        have : 0 ≤ age_hours / 168 := by positivity
        linarith
    _ = 1 := Real.exp_zero

/-- C7: when the relevance score, the recency decay (age ≥ 0), the source
trust and the user-preference constant all lie in [0,1] and the weights are
non-negative and sum to 1, the composite hybrid score lies in [0,1]. -/
theorem claim_C7_hybrid_score_bounded (w : RankingWeights) (r : RankItem)
    (hs0 : 0 ≤ r.score) (hs1 : r.score ≤ 1)
    (hage : 0 ≤ r.age_hours)
    (ht0 : 0 ≤ _get_source_trust r.source) (ht1 : _get_source_trust r.source ≤ 1)
    (hw1 : 0 ≤ w.relevance) (hw2 : 0 ≤ w.recency)
    (hw3 : 0 ≤ w.source_trust) (hw4 : 0 ≤ w.user_preference)
    (hsum : w.relevance + w.recency + w.source_trust + w.user_preference = 1) :
    0 ≤ hybrid_score w r ∧ hybrid_score w r ≤ 1 := by
  have he0 : 0 < recency_decay r.age_hours := recency_decay_pos _
  have he1 : recency_decay r.age_hours ≤ 1 := recency_decay_le_one hage
  unfold hybrid_score
  constructor
  · have t1 : 0 ≤ r.score * w.relevance := mul_nonneg hs0 hw1
    have t2 : 0 ≤ recency_decay r.age_hours * w.recency := mul_nonneg he0.le hw2
    have t3 : 0 ≤ _get_source_trust r.source * w.source_trust := mul_nonneg ht0 hw3
    have t4 : (0 : ℝ) ≤ 0.5 * w.user_preference := by
      apply mul_nonneg _ hw4
      norm_num
    linarith
  · have t1 : r.score * w.relevance ≤ w.relevance := by
      nlinarith
    have t2 : recency_decay r.age_hours * w.recency ≤ w.recency := by
      nlinarith
    have t3 : _get_source_trust r.source * w.source_trust ≤ w.source_trust := by
      nlinarith
    have t4 : (0.5 : ℝ) * w.user_preference ≤ w.user_preference := by
      nlinarith
    linarith

/-- C7 witness at a concrete input. -/
theorem claim_C7_witness :
    (0 ≤ itemFresh.score ∧ itemFresh.score ≤ 1 ∧ 0 ≤ itemFresh.age_hours
      ∧ 0 ≤ _get_source_trust itemFresh.source ∧ _get_source_trust itemFresh.source ≤ 1
      ∧ 0 ≤ defaultRankingWeights.relevance ∧ 0 ≤ defaultRankingWeights.recency
      ∧ 0 ≤ defaultRankingWeights.source_trust ∧ 0 ≤ defaultRankingWeights.user_preference
      ∧ defaultRankingWeights.relevance + defaultRankingWeights.recency
          + defaultRankingWeights.source_trust + defaultRankingWeights.user_preference = 1)
    ∧ (0 ≤ hybrid_score defaultRankingWeights itemFresh
        ∧ hybrid_score defaultRankingWeights itemFresh ≤ 1) := by
  have h1 : (0 : ℝ) ≤ itemFresh.score := by norm_num [itemFresh]
  have h2 : itemFresh.score ≤ 1 := by norm_num [itemFresh]
  have h3 : (0 : ℝ) ≤ itemFresh.age_hours := by norm_num [itemFresh]
  have h4 : 0 ≤ _get_source_trust itemFresh.source := by norm_num [_get_source_trust, itemFresh]
  have h5 : _get_source_trust itemFresh.source ≤ 1 := by norm_num [_get_source_trust, itemFresh]
  have h6 : (0 : ℝ) ≤ defaultRankingWeights.relevance := by norm_num [defaultRankingWeights]
  have h7 : (0 : ℝ) ≤ defaultRankingWeights.recency := by norm_num [defaultRankingWeights]
  have h8 : (0 : ℝ) ≤ defaultRankingWeights.source_trust := by norm_num [defaultRankingWeights]
  have h9 : (0 : ℝ) ≤ defaultRankingWeights.user_preference := by norm_num [defaultRankingWeights]
  have h10 : defaultRankingWeights.relevance + defaultRankingWeights.recency
      + defaultRankingWeights.source_trust + defaultRankingWeights.user_preference = 1 := by
    norm_num [defaultRankingWeights]
  exact ⟨⟨h1, h2, h3, h4, h5, h6, h7, h8, h9, h10⟩,
    claim_C7_hybrid_score_bounded defaultRankingWeights itemFresh
      h1 h2 h3 h4 h5 h6 h7 h8 h9 h10⟩

theorem scoreDescBool_trans (a b c : RankItem)
    (h1 : scoreDescBool a b = true) (h2 : scoreDescBool b c = true) :
    scoreDescBool a c = true := by
  simp only [scoreDescBool, decide_eq_true_eq] at h1 h2 ⊢
  linarith

theorem scoreDescBool_total (a b : RankItem) :
    (scoreDescBool a b || scoreDescBool b a) = true := by
  simp only [scoreDescBool, Bool.or_eq_true, decide_eq_true_eq]
  exact le_total b.score a.score

/-- C8: under default weights, the fresh high-trust result (score 0.9, age
0 h, trust 0.9) scores strictly above the week-old low-trust one (score 0.8,
age 168 h, trust 0.5) and is ranked first by `_rank_hybrid`; and the
descending sort is stable: any tied (equal-composite-score) subsequence of
the input stays a subsequence of the sorted output, preserving input order. -/
theorem claim_C8_hybrid_ordering_and_stability :
    (hybrid_score defaultRankingWeights itemFresh
      > hybrid_score defaultRankingWeights itemWeekOld)
    ∧ (_rank_hybrid defaultRankingWeights [itemFresh, itemWeekOld]
      = [{ itemFresh with score := hybrid_score defaultRankingWeights itemFresh },
         { itemWeekOld with score := hybrid_score defaultRankingWeights itemWeekOld }])
    ∧ (∀ (l c : List RankItem), c.Pairwise (fun a b => a.score = b.score) →
        c.Sublist l → c.Sublist (sortByScoreDesc l)) := by
  have hgt : hybrid_score defaultRankingWeights itemFresh
      > hybrid_score defaultRankingWeights itemWeekOld := by
    have he1 : recency_decay 168 ≤ 1 := recency_decay_le_one (by norm_num)
    have he0 : (0 : ℝ) < recency_decay 168 := recency_decay_pos _
    have hd0 : recency_decay 0 = 1 := by
      unfold recency_decay
      norm_num
    have htF : _get_source_trust "cognee" = 0.9 := by simp [_get_source_trust]
    have htW : _get_source_trust "other" = 0.5 := by simp [_get_source_trust]
    unfold hybrid_score
    simp only [itemFresh, itemWeekOld, defaultRankingWeights]
    rw [hd0, htF, htW]
    nlinarith [he1, he0]
  refine ⟨hgt, ?_, ?_⟩
  · unfold _rank_hybrid sortByScoreDesc
    simp only [List.map_cons, List.map_nil]
    apply List.mergeSort_of_sorted
    apply List.pairwise_cons.mpr
    constructor
    · intro b hb
      have hb' : b = { itemWeekOld with score := hybrid_score defaultRankingWeights itemWeekOld } := by
        simpa using hb
      subst hb'
      simp only [scoreDescBool, decide_eq_true_eq]
      exact le_of_lt hgt
    · exact List.pairwise_singleton _ _
  · intro l c hpw hsub
    exact List.sublist_mergeSort scoreDescBool_trans
      (fun a b => scoreDescBool_total a b)
      (hpw.imp (fun h => by simp only [scoreDescBool, decide_eq_true_eq]; exact le_of_eq h.symm))
      hsub
